import Mathlib

/-!
Verification development for the PSoC 6 MCU Multi-Counter Watchdog Timer
(MCWDT) example firmware, a single C translation unit (main.c).

Modelling conventions.

The firmware is a blocking polling loop over two external resources: a
GPIO pin (the user button, active low: a read of 0 means pressed) and a
free-running 32-bit counter assembled from two cascaded 16-bit MCWDT
counters.  Both are modelled as pure functions of discrete time, with one
time unit equal to one debounce sampling period (SWITCH_DEBOUNCE_CHECK_UNIT
milliseconds): the pin trace is a function from the time index to the raw
value returned by Cy_GPIO_Read, and the two counter registers are functions
from the time index to the raw values returned by Cy_MCWDT_GetCount.

Busy-wait loops that poll the pin without an intervening delay spin much
faster than the signal granularity, so they are discretised as observing
the trace at consecutive time indices and stopping at the first index whose
level terminates the loop.  The blind delay loop inside the release
debounce performs no pin reads at all; it is modelled as advancing time
without consulting the trace, exactly as the C code does.

Unbounded C loops become fuel-indexed recursions returning an Option;
none is returned only when the fuel runs out, which corresponds to the
real program still being blocked inside the loop at that point.

Machine integers are modelled as Nat with an explicit reduction modulo
2 ^ 32 wherever uint32 overflow could occur.  printf calls and counter
register reads are modelled as explicit effect values so that frame
claims about them can be stated.
-/

namespace MCWDT

/-- Macro SWITCH_DEBOUNCE_CHECK_UNIT (main.c line 54): switch press or
release check interval in milliseconds for debouncing.  It is the length of
one sampling period, the time unit of the model. -/
def SWITCH_DEBOUNCE_CHECK_UNIT : Nat := 1

/-- Macro SWITCH_DEBOUNCE_MAX_PERIOD_UNITS (main.c line 58): number of
debounce check units to count before considering that the switch is
pressed or released. -/
def SWITCH_DEBOUNCE_MAX_PERIOD_UNITS : Nat := 80

/-- Macro LED_ON (main.c line 64): value written to the GPIO to switch the
LED on (the LED is active low). -/
def LED_ON : Nat := 0

/-- Constant CY_SYSCLK_WCO_FREQ from the PDL: frequency in Hz of the WCO
clock that drives MCWDT_0 Counter0 and Counter1 (main.c lines 181-183). -/
def CY_SYSCLK_WCO_FREQ : Nat := 32768

/-- Busy-wait loop of main.c line 234: while the pin reads 0 (pressed), keep
reading; stop at the first observation instant whose read is nonzero and
return that instant.  The loop body has no delay, so consecutive reads are
discretised as consecutive time indices of the trace. -/
def waitRelease (pin : Nat → Nat) : Nat → Nat → Option Nat
  | 0, _ => none
  | fuel + 1, t =>
      if pin t = 0 then waitRelease pin fuel (t + 1) else some t

/-- Release-debounce do-while loop of main.c lines 239-249.  Each iteration
resets delayCounter to 0, then runs the inner while loop, which performs
SWITCH_DEBOUNCE_MAX_PERIOD_UNITS delays of SWITCH_DEBOUNCE_CHECK_UNIT
milliseconds each without reading the pin, and finally reads the pin once
in the do-while condition.  A pressed read repeats the iteration from the
new time; a released read ends the loop at that time. -/
def releaseDebounce (pin : Nat → Nat) : Nat → Nat → Option Nat
  | 0, _ => none
  | fuel + 1, t =>
      if pin (t + SWITCH_DEBOUNCE_MAX_PERIOD_UNITS * SWITCH_DEBOUNCE_CHECK_UNIT) = 0 then
        releaseDebounce pin fuel
          (t + SWITCH_DEBOUNCE_MAX_PERIOD_UNITS * SWITCH_DEBOUNCE_CHECK_UNIT)
      else
        some (t + SWITCH_DEBOUNCE_MAX_PERIOD_UNITS * SWITCH_DEBOUNCE_CHECK_UNIT)

/-- Outer while loop of read_switch_status (main.c lines 222-254), with the
local state (current time, delayCounter, sw_status) made explicit.  A read
of 0 at time t proceeds to a one-unit delay, increments delayCounter, and,
once delayCounter exceeds SWITCH_DEBOUNCE_MAX_PERIOD_UNITS, runs the
release wait and the release debounce; after the do-while loop the C code
leaves delayCounter equal to SWITCH_DEBOUNCE_MAX_PERIOD_UNITS and
sw_status equal to 1 and re-enters the outer loop.  A nonzero read at the
top of the loop returns sw_status together with the time of that read. -/
def rssLoop (pin : Nat → Nat) : Nat → Nat → Nat → Nat → Option (Nat × Nat)
  | 0, _, _, _ => none
  | fuel + 1, t, delayCounter, sw_status =>
      if pin t = 0 then
        if SWITCH_DEBOUNCE_MAX_PERIOD_UNITS < delayCounter + 1 then
          match waitRelease pin fuel (t + SWITCH_DEBOUNCE_CHECK_UNIT) with
          | none => none
          | some t2 =>
              match releaseDebounce pin fuel t2 with
              | none => none
              | some t3 => rssLoop pin fuel t3 SWITCH_DEBOUNCE_MAX_PERIOD_UNITS 1
        else
          rssLoop pin fuel (t + SWITCH_DEBOUNCE_CHECK_UNIT) (delayCounter + 1) sw_status
      else
        some (sw_status, t)

/-- Function read_switch_status (main.c lines 216-257): enters the outer
loop at the given time with delayCounter = 0 and sw_status = 0 and returns
the pair (returned sw_status value, time at which the function returns). -/
def read_switch_status (pin : Nat → Nat) (fuel t : Nat) : Option (Nat × Nat) :=
  rssLoop pin fuel t 0 0

/-- Combination of the two cascaded 16-bit counter reads into the 32-bit
event count, main.c line 178: ((counter1_value<<16) | (counter0_value<<0))
evaluated in uint32 arithmetic, hence the reductions modulo 2 ^ 32. -/
def combine_counters (counter1_value counter0_value : Nat) : Nat :=
  ((counter1_value <<< 16) % 2 ^ 32) ||| ((counter0_value <<< 0) % 2 ^ 32)

/-- Event history of the estimator: the two uint32 variables event1_cnt
and event2_cnt of main (main.c line 105). -/
structure EventState where
  event1_cnt : Nat
  event2_cnt : Nat
deriving DecidableEq, Repr

/-- Outcome of one press event: whether the valid branch of main.c line 184
was taken, and the value assigned to the uint32 variable timegap.  On the
overflow branch the code assigns timegap = 0 (main.c line 193). -/
structure ElapsedResult where
  valid : Bool
  timegap : Nat
deriving DecidableEq, Repr

/-- Elapsed-time estimator step, main.c lines 170-196: shift event2_cnt
into event1_cnt, read the two counters and combine them into the new
event2_cnt, then either compute timegap by floor division of the delta by
CY_SYSCLK_WCO_FREQ (valid branch) or set timegap to 0 (overflow branch). -/
def on_press_event (s : EventState) (counter0_value counter1_value : Nat) :
    EventState × ElapsedResult :=
  let event1_cnt := s.event2_cnt
  let event2_cnt := combine_counters counter1_value counter0_value
  if event1_cnt < event2_cnt then
    (⟨event1_cnt, event2_cnt⟩,
     ⟨true, (event2_cnt - event1_cnt) / CY_SYSCLK_WCO_FREQ⟩)
  else
    (⟨event1_cnt, event2_cnt⟩, ⟨false, 0⟩)

/-- Observable effects of one main-loop iteration: the two counter register
reads of main.c lines 176-177 and the printf of line 188 or line 195. -/
inductive Effect where
  | read_counter0 (value : Nat)
  | read_counter1 (value : Nat)
  | print_timegap (seconds : Nat)
  | print_overflow
deriving DecidableEq, Repr

/-- State carried across main-loop iterations: the two event counts and
the current time index of the pin and counter traces. -/
structure LoopState where
  event1_cnt : Nat
  event2_cnt : Nat
  time : Nat
deriving DecidableEq, Repr

/-- One iteration of the for loop of main (main.c lines 161-199): call
read_switch_status; if it returns nonzero, read Counter0 then Counter1 at
the return time, run the estimator step, and emit the corresponding print
effect; otherwise change nothing and emit no effect. -/
def main_loop_iter (pin c0 c1 : Nat → Nat) (fuel : Nat) (s : LoopState) :
    Option (LoopState × List Effect) :=
  match read_switch_status pin fuel s.time with
  | none => none
  | some (sw, t) =>
      if sw = 0 then
        some (⟨s.event1_cnt, s.event2_cnt, t⟩, [])
      else
        let v0 := c0 t
        let v1 := c1 t
        match on_press_event ⟨s.event1_cnt, s.event2_cnt⟩ v0 v1 with
        | (es, r) =>
            some (⟨es.event1_cnt, es.event2_cnt, t⟩,
                  [Effect.read_counter0 v0, Effect.read_counter1 v1,
                   if r.valid then Effect.print_timegap r.timegap
                   else Effect.print_overflow])

/-- Outcomes of the three fallible initialization calls of main:
cybsp_init (line 112), cy_retarget_io_init (line 124) and Cy_MCWDT_Init
(line 134), each recorded as whether it returned its success code. -/
structure InitResults where
  cybsp_ok : Bool
  retarget_io_ok : Bool
  mcwdt_ok : Bool
deriving DecidableEq, Repr

/-- Observable actions of the initialization sequence: the global
interrupt enable of line 121, and the three actions a failure path can
perform: the interrupt disable and LED write of handle_error and the
CY_ASSERT(0) halt. -/
inductive InitAction where
  | enable_irq
  | disable_irq
  | led_write (value : Nat)
  | assert_halt
deriving DecidableEq, Repr

/-- Function handle_error (main.c lines 275-286): disable all interrupts,
turn on the error LED, and halt the CPU via CY_ASSERT(0). -/
def handle_error : List InitAction :=
  [InitAction.disable_irq, InitAction.led_write LED_ON, InitAction.assert_halt]

/-- Initialization sequence of main (main.c lines 112-143): a cybsp_init
failure halts at once via CY_ASSERT(0) (line 117) before interrupts are
enabled and without touching the LED; otherwise interrupts are enabled,
and a cy_retarget_io_init or Cy_MCWDT_Init failure calls handle_error.
The Bool result records whether control reaches the main loop. -/
def main_init (r : InitResults) : List InitAction × Bool :=
  if r.cybsp_ok = false then
    ([InitAction.assert_halt], false)
  else if r.retarget_io_ok = false then
    (InitAction.enable_irq :: handle_error, false)
  else if r.mcwdt_ok = false then
    (InitAction.enable_irq :: handle_error, false)
  else
    ([InitAction.enable_irq], true)

/-! Helper lemmas about the constants and the estimator. -/

lemma max_units_eq : SWITCH_DEBOUNCE_MAX_PERIOD_UNITS = 80 := rfl

lemma check_unit_eq : SWITCH_DEBOUNCE_CHECK_UNIT = 1 := rfl

lemma debounce_window :
    SWITCH_DEBOUNCE_MAX_PERIOD_UNITS * SWITCH_DEBOUNCE_CHECK_UNIT = 80 := rfl

lemma wco_freq_eq : CY_SYSCLK_WCO_FREQ = 32768 := rfl

lemma combine_counters_small (counter1_value counter0_value : Nat)
    (h1 : counter1_value ≤ 65535) (h0 : counter0_value ≤ 65535) :
    combine_counters counter1_value counter0_value =
      counter1_value * 2 ^ 16 + counter0_value := by
  have e1 : counter1_value <<< 16 = counter1_value * 2 ^ 16 :=
    Nat.shiftLeft_eq counter1_value 16
  have e0 : counter0_value <<< 0 = counter0_value := by
    simp [Nat.shiftLeft_eq]
  have l1 : counter1_value * 2 ^ 16 < 2 ^ 32 := by
    have h16 : (2 : Nat) ^ 16 = 65536 := by norm_num
    have h32 : (2 : Nat) ^ 32 = 4294967296 := by norm_num
    rw [h16, h32]; omega
  have l0 : counter0_value < 2 ^ 32 := by
    have h32 : (2 : Nat) ^ 32 = 4294967296 := by norm_num
    omega
  have l0w : counter0_value < 2 ^ 16 := by
    have h16 : (2 : Nat) ^ 16 = 65536 := by norm_num
    omega
  unfold combine_counters
  rw [e1, e0, Nat.mod_eq_of_lt l1, Nat.mod_eq_of_lt l0]
  rw [mul_comm counter1_value (2 ^ 16)]
  exact (Nat.mul_add_lt_is_or l0w counter1_value).symm

lemma on_press_event_valid (e1 prev c0 c1 : Nat)
    (h : prev < combine_counters c1 c0) :
    on_press_event ⟨e1, prev⟩ c0 c1 =
      (⟨prev, combine_counters c1 c0⟩,
       ⟨true, (combine_counters c1 c0 - prev) / CY_SYSCLK_WCO_FREQ⟩) := by
  unfold on_press_event
  simp [h]

lemma on_press_event_overflow (e1 prev c0 c1 : Nat)
    (h : combine_counters c1 c0 ≤ prev) :
    on_press_event ⟨e1, prev⟩ c0 c1 =
      (⟨prev, combine_counters c1 c0⟩, ⟨false, 0⟩) := by
  unfold on_press_event
  simp [Nat.not_lt.mpr h]

/-! Helper lemmas about the debounce sampler. -/

lemma waitRelease_found (pin : Nat → Nat) (n : Nat)
    (hp : ∀ s, pin s = 0 ↔ s < n) :
    ∀ fuel t, t ≤ n → n - t < fuel → waitRelease pin fuel t = some n := by
  intro fuel
  induction fuel with
  | zero => intro t _ hf; omega
  | succ f ih =>
      intro t ht hf
      by_cases h : t < n
      · have hp0 : pin t = 0 := (hp t).mpr h
        simp only [waitRelease, hp0, if_true]
        exact ih (t + 1) (by omega) (by omega)
      · have hteq : t = n := by omega
        have hpn : ¬ pin t = 0 := by
          rw [hp t]; omega
        simp only [waitRelease, hpn, if_false]
        rw [hteq]

lemma waitRelease_sound (pin : Nat → Nat) :
    ∀ fuel t r, waitRelease pin fuel t = some r → t ≤ r ∧ pin r ≠ 0 := by
  intro fuel
  induction fuel with
  | zero => intro t r h; simp [waitRelease] at h
  | succ f ih =>
      intro t r h
      by_cases hp : pin t = 0
      · simp only [waitRelease, hp, if_true] at h
        have := ih (t + 1) r h
        exact ⟨by omega, this.2⟩
      · simp only [waitRelease, hp, if_false, Option.some_inj] at h
        subst h
        exact ⟨Nat.le_refl t, hp⟩

lemma releaseDebounce_released (pin : Nat → Nat) (fuel t : Nat)
    (h : pin (t + 80) ≠ 0) :
    releaseDebounce pin (fuel + 1) t = some (t + 80) := by
  simp only [releaseDebounce, debounce_window, h, if_false]

lemma releaseDebounce_sound (pin : Nat → Nat) :
    ∀ fuel t r, releaseDebounce pin fuel t = some r →
      t + 80 ≤ r ∧ pin r ≠ 0 := by
  intro fuel
  induction fuel with
  | zero => intro t r h; simp [releaseDebounce] at h
  | succ f ih =>
      intro t r h
      simp only [releaseDebounce, debounce_window] at h
      by_cases hp : pin (t + 80) = 0
      · rw [if_pos hp] at h
        have := ih (t + 80) r h
        exact ⟨by omega, this.2⟩
      · rw [if_neg hp, Option.some_inj] at h
        subst h
        exact ⟨Nat.le_refl _, hp⟩

lemma rssLoop_exit (pin : Nat → Nat) (fuel t delayCounter sw_status : Nat)
    (h : pin t ≠ 0) :
    rssLoop pin (fuel + 1) t delayCounter sw_status = some (sw_status, t) := by
  simp only [rssLoop, h, if_false]

lemma rssLoop_sound_end (pin : Nat → Nat) :
    ∀ fuel t delayCounter sw_status s tEnd,
      rssLoop pin fuel t delayCounter sw_status = some (s, tEnd) →
      t ≤ tEnd ∧ pin tEnd ≠ 0 := by
  intro fuel
  induction fuel with
  | zero => intro t d sw s tEnd h; simp [rssLoop] at h
  | succ f ih =>
      intro t d sw s tEnd h
      by_cases hp : pin t = 0
      · simp only [rssLoop, hp, if_true] at h
        by_cases hd : SWITCH_DEBOUNCE_MAX_PERIOD_UNITS < d + 1
        · rw [if_pos hd] at h
          split at h
          · exact absurd h (by simp)
          · rename_i t2 hw
            split at h
            · exact absurd h (by simp)
            · rename_i t3 hr
              have h1 := waitRelease_sound pin f _ t2 hw
              have h2 := releaseDebounce_sound pin f t2 t3 hr
              have h3 := ih t3 SWITCH_DEBOUNCE_MAX_PERIOD_UNITS 1 s tEnd h
              rw [check_unit_eq] at h1
              exact ⟨by omega, h3.2⟩
        · rw [if_neg hd] at h
          have := ih (t + SWITCH_DEBOUNCE_CHECK_UNIT) (d + 1) sw s tEnd h
          rw [check_unit_eq] at this
          exact ⟨by omega, this.2⟩
      · rw [rssLoop_exit pin f t d sw hp] at h
        simp only [Option.some_inj, Prod.mk.injEq] at h
        obtain ⟨_, ht⟩ := h
        subst ht
        exact ⟨Nat.le_refl t, hp⟩

lemma rssLoop_short_press (pin : Nat → Nat) (n : Nat)
    (hp : ∀ s, pin s = 0 ↔ s < n) :
    ∀ a fuel t d, t + a = n → d + a ≤ 80 → a < fuel →
      rssLoop pin fuel t d 0 = some (0, n) := by
  intro a
  induction a with
  | zero =>
      intro fuel t d ht _ hf
      obtain ⟨f, rfl⟩ : ∃ f, fuel = f + 1 := ⟨fuel - 1, by omega⟩
      have hpn : pin t ≠ 0 := by
        intro hc
        rw [hp t] at hc
        omega
      rw [rssLoop_exit pin f t d 0 hpn]
      rw [show t = n by omega]
  | succ a ih =>
      intro fuel t d ht hd hf
      obtain ⟨f, rfl⟩ : ∃ f, fuel = f + 1 := ⟨fuel - 1, by omega⟩
      have hp0 : pin t = 0 := (hp t).mpr (by omega)
      have hnd : ¬ SWITCH_DEBOUNCE_MAX_PERIOD_UNITS < d + 1 := by
        rw [max_units_eq]; omega
      simp only [rssLoop, hp0, if_true, hnd, if_false, check_unit_eq]
      exact ih f (t + 1) (d + 1) (by omega) (by omega) (by omega)

lemma rssLoop_confirmed_press (pin : Nat → Nat) (n : Nat)
    (hp : ∀ s, pin s = 0 ↔ s < n) (hn : 81 ≤ n) :
    ∀ a fuel t d, 1 ≤ a → d + a = 81 → t + a = 81 → n + a < fuel + 81 →
      rssLoop pin fuel t d 0 = some (1, n + 80) := by
  intro a
  induction a with
  | zero => intro fuel t d h1 _ _ _; omega
  | succ a ih =>
      intro fuel t d _ hd ht hf
      obtain ⟨f, rfl⟩ : ∃ f, fuel = f + 1 := ⟨fuel - 1, by omega⟩
      have hp0 : pin t = 0 := (hp t).mpr (by omega)
      cases Nat.eq_zero_or_pos a with
      | inl ha =>
          subst ha
          have hdeq : d = 80 := by omega
          have hteq : t = 80 := by omega
          subst hdeq; subst hteq
          have hbig : SWITCH_DEBOUNCE_MAX_PERIOD_UNITS < 80 + 1 := by
            rw [max_units_eq]; omega
          have hw : waitRelease pin f (80 + 1) = some n :=
            waitRelease_found pin n hp f 81 (by omega) (by omega)
          obtain ⟨f2, rfl⟩ : ∃ f2, f = f2 + 1 := ⟨f - 1, by omega⟩
          have hnrel : pin (n + 80) ≠ 0 := by
            intro hc
            rw [hp (n + 80)] at hc
            omega
          have hr : releaseDebounce pin (f2 + 1) n = some (n + 80) :=
            releaseDebounce_released pin f2 n hnrel
          have hret : rssLoop pin (f2 + 1) (n + 80)
              SWITCH_DEBOUNCE_MAX_PERIOD_UNITS 1 = some (1, n + 80) :=
            rssLoop_exit pin f2 (n + 80) SWITCH_DEBOUNCE_MAX_PERIOD_UNITS 1 hnrel
          simp only [rssLoop, hp0, if_true, hbig, check_unit_eq, hw, hr, hret]
          rw [if_neg hnrel]
      | inr ha =>
          have hnd : ¬ SWITCH_DEBOUNCE_MAX_PERIOD_UNITS < d + 1 := by
            rw [max_units_eq]; omega
          simp only [rssLoop, hp0, if_true, hnd, if_false, check_unit_eq]
          exact ih f (t + 1) (d + 1) ha (by omega) (by omega) (by omega)

lemma rssLoop_confirm_needs_run (pin : Nat → Nat) :
    ∀ fuel t d tEnd, d ≤ 80 → rssLoop pin fuel t d 0 = some (1, tEnd) →
      (∀ j, j ≤ 80 - d → pin (t + j) = 0) ∧ t + (80 - d) < tEnd := by
  intro fuel
  induction fuel with
  | zero => intro t d tEnd _ h; simp [rssLoop] at h
  | succ f ih =>
      intro t d tEnd hd h
      by_cases hp : pin t = 0
      · simp only [rssLoop, hp, if_true] at h
        by_cases hbig : SWITCH_DEBOUNCE_MAX_PERIOD_UNITS < d + 1
        · have hdeq : d = 80 := by
            rw [max_units_eq] at hbig; omega
          subst hdeq
          rw [if_pos hbig] at h
          split at h
          · exact absurd h (by simp)
          · rename_i t2 hw
            split at h
            · exact absurd h (by simp)
            · rename_i t3 hr
              have h1 := waitRelease_sound pin f _ t2 hw
              have h2 := releaseDebounce_sound pin f t2 t3 hr
              have h3 := rssLoop_sound_end pin f t3
                SWITCH_DEBOUNCE_MAX_PERIOD_UNITS 1 1 tEnd h
              rw [check_unit_eq] at h1
              constructor
              · intro j hj
                have : j = 0 := by omega
                subst this
                simpa using hp
              · omega
        · rw [if_neg hbig] at h
          rw [max_units_eq] at hbig
          have hdle : d + 1 ≤ 80 := by omega
          rw [check_unit_eq] at h
          have := ih (t + 1) (d + 1) tEnd hdle h
          constructor
          · intro j hj
            cases Nat.eq_zero_or_pos j with
            | inl hj0 => subst hj0; simpa using hp
            | inr hjpos =>
                obtain ⟨j2, rfl⟩ : ∃ j2, j = j2 + 1 := ⟨j - 1, by omega⟩
                have hj2 := this.1 j2 (by omega)
                rw [show t + 1 + j2 = t + (j2 + 1) by omega] at hj2
                exact hj2
          · have h2 := this.2
            omega
      · rw [rssLoop_exit pin f t d 0 hp] at h
        simp only [Option.some_inj, Prod.mk.injEq] at h
        omega

lemma releaseDebounce_first_released (pin : Nat → Nat) :
    ∀ i t2 fuel, 1 ≤ i → i ≤ fuel →
      (∀ j, 1 ≤ j → j < i → pin (t2 + 80 * j) = 0) →
      pin (t2 + 80 * i) ≠ 0 →
      releaseDebounce pin fuel t2 = some (t2 + 80 * i) := by
  intro i
  induction i with
  | zero => intro t2 fuel h1 _ _ _; omega
  | succ i ih =>
      intro t2 fuel _ hfuel hflick hrel
      obtain ⟨f, rfl⟩ : ∃ f, fuel = f + 1 := ⟨fuel - 1, by omega⟩
      cases Nat.eq_zero_or_pos i with
      | inl hi0 =>
          subst hi0
          have hone : pin (t2 + 80) ≠ 0 := by
            rw [show t2 + 80 = t2 + 80 * 1 by omega]
            exact hrel
          rw [releaseDebounce_released pin f t2 hone]
      | inr hipos =>
          have hp1 : pin (t2 + 80) = 0 := by
            rw [show t2 + 80 = t2 + 80 * 1 by omega]
            exact hflick 1 (by omega) (by omega)
          simp only [releaseDebounce, debounce_window, hp1, if_true]
          have step : ∀ j, 1 ≤ j → j < i → pin (t2 + 80 + 80 * j) = 0 := by
            intro j hj1 hji
            rw [show t2 + 80 + 80 * j = t2 + 80 * (j + 1) by ring]
            exact hflick (j + 1) (by omega) (by omega)
          have hrel2 : pin (t2 + 80 + 80 * i) ≠ 0 := by
            rw [show t2 + 80 + 80 * i = t2 + 80 * (i + 1) by ring]
            exact hrel
          rw [ih (t2 + 80) f hipos (by omega) step hrel2]
          rw [show t2 + 80 + 80 * i = t2 + 80 * (i + 1) by ring]

/-! Theorems settling the claims. -/

/-- C1: for every pair of event-count samples (previous, current) with
current > previous, the estimator takes the valid branch and reports
elapsed seconds equal to floor((current - previous) / counterFrequencyHz),
using integer floor division, including the boundary values
current - previous = counterFrequencyHz - 1 (reported as 0 seconds) and
current - previous = counterFrequencyHz (reported as 1 second). -/
theorem C1_valid_floor_division (e1 prev c0 c1 : Nat)
    (h : prev < combine_counters c1 c0) :
    (on_press_event ⟨e1, prev⟩ c0 c1).2 =
      ⟨true, (combine_counters c1 c0 - prev) / CY_SYSCLK_WCO_FREQ⟩ ∧
    (combine_counters c1 c0 - prev = CY_SYSCLK_WCO_FREQ - 1 →
      (on_press_event ⟨e1, prev⟩ c0 c1).2.timegap = 0) ∧
    (combine_counters c1 c0 - prev = CY_SYSCLK_WCO_FREQ →
      (on_press_event ⟨e1, prev⟩ c0 c1).2.timegap = 1) := by
  rw [on_press_event_valid e1 prev c0 c1 h]
  refine ⟨rfl, ?_, ?_⟩
  · intro hd; rw [hd]
    show (CY_SYSCLK_WCO_FREQ - 1) / CY_SYSCLK_WCO_FREQ = 0
    decide
  · intro hd; rw [hd]
    show CY_SYSCLK_WCO_FREQ / CY_SYSCLK_WCO_FREQ = 1
    decide

/-- Witness for C1 at a boundary input: previous = 0 and a raw counter
reading whose combined value is exactly CY_SYSCLK_WCO_FREQ, so the reported
time is 1 second. -/
theorem C1_valid_floor_division_witness :
    (on_press_event ⟨0, 0⟩ 32768 0).2 = ⟨true, 1⟩ := by
  have h := (C1_valid_floor_division 0 0 32768 0 (by decide)).1
  rw [h]; decide

/-- C2: for every pair of event-count samples with current <= previous,
including current == previous, the estimator takes the overflow branch:
the result is not valid and the seconds value is defined to be zero, so no
negative or wrapped-around positive elapsed time is ever reported. -/
theorem C2_overflow_branch (e1 prev c0 c1 : Nat)
    (h : combine_counters c1 c0 ≤ prev) :
    (on_press_event ⟨e1, prev⟩ c0 c1).2 = ⟨false, 0⟩ := by
  rw [on_press_event_overflow e1 prev c0 c1 h]

/-- Witness for C2: previous sample 100000, raw counter reads combining to
65538 < 100000; the overflow branch fires with timegap 0. -/
theorem C2_overflow_branch_witness :
    (on_press_event ⟨0, 100000⟩ 2 1).2 = ⟨false, 0⟩ :=
  C2_overflow_branch 0 100000 2 1 (by decide)

/-- C3: for every low-register value L and high-register value H, each at
most 65535, the combined logical counter value equals (H << 16) | L
exactly: arithmetically it is H * 2 ^ 16 + L, its low 16 bits are L and
its high bits are H, so bit positions are preserved. -/
theorem C3_combine_registers (H L : Nat) (hH : H ≤ 65535) (hL : L ≤ 65535) :
    combine_counters H L = (H <<< 16) ||| L ∧
    combine_counters H L = H * 2 ^ 16 + L ∧
    combine_counters H L % 2 ^ 16 = L ∧
    combine_counters H L / 2 ^ 16 = H := by
  have hc := combine_counters_small H L hH hL
  have h16 : (2 : Nat) ^ 16 = 65536 := by norm_num
  refine ⟨?_, hc, ?_, ?_⟩
  · rw [hc, Nat.shiftLeft_eq]
    have l0w : L < 2 ^ 16 := by omega
    rw [mul_comm H (2 ^ 16)]
    exact Nat.mul_add_lt_is_or l0w H
  · rw [hc, h16]; omega
  · rw [hc, h16]; omega

/-- Witness for C3 at H = 1, L = 2: the combined value is 65538. -/
theorem C3_combine_registers_witness :
    combine_counters 1 2 = 1 * 2 ^ 16 + 2 := by
  have h := (C3_combine_registers 1 2 (by decide) (by decide)).2.1
  exact h

/-- C7: after every processed press event, on both the valid and the
overflow branch, event1_cnt holds the sample from one event earlier and
event2_cnt holds the counter sample just read and combined for this
event; in particular on the overflow branch the newly read value still
becomes the baseline for the next comparison. -/
theorem C7_history_shift (s : EventState) (c0 c1 : Nat) :
    (on_press_event s c0 c1).1 =
      ⟨s.event2_cnt, combine_counters c1 c0⟩ := by
  unfold on_press_event
  by_cases h : s.event2_cnt < combine_counters c1 c0 <;> simp [h]

/-- Counterexample to C6: with both stored samples initialized to zero, a
first press event whose counter registers both read 0 combines to 0, which
is not strictly greater than the zero baseline, so the estimator takes the
overflow branch instead of reporting a valid elapsed time. -/
theorem C6_first_event_cex :
    (on_press_event ⟨0, 0⟩ 0 0).2 = ⟨false, 0⟩ ∧
    (on_press_event ⟨0, 0⟩ 0 0).2.valid = false := by
  constructor <;> rfl

/-- C6 amended: for every value read at the first press event after
startup (both stored samples zero) whose combined counter value is
nonzero, the estimator reports a valid elapsed time equal to
currentEventCount / counterFrequencyHz; only the combined reading 0 is
classified as overflow. -/
theorem C6_first_event_valid (c0 c1 : Nat)
    (h : combine_counters c1 c0 ≠ 0) :
    (on_press_event ⟨0, 0⟩ c0 c1).2 =
      ⟨true, combine_counters c1 c0 / CY_SYSCLK_WCO_FREQ⟩ := by
  have hpos : 0 < combine_counters c1 c0 := Nat.pos_of_ne_zero h
  have := on_press_event_valid 0 0 c0 c1 hpos
  rw [this]
  simp

/-- Witness for C6 amended: first press with counter registers reading
low = 32768, high = 1, combining to 98304, reported as 3 seconds. -/
theorem C6_first_event_valid_witness :
    (on_press_event ⟨0, 0⟩ 32768 1).2 = ⟨true, 3⟩ := by
  have h := C6_first_event_valid 32768 1 (by decide)
  rw [h]; decide

set_option maxRecDepth 8000 in
/-- Counterexample to C4 as stated: on the trace whose press is held for
exactly T = 80 sampling periods (pressed at times 0..79) and released for
every later period, read_switch_status returns 0 at time 80 and never
returns true, although the claim requires true exactly once for a press
held at least T periods followed by a release held at least T periods. -/
theorem C4_threshold_cex :
    read_switch_status (fun t => if t < 80 then 0 else 1) 200 0 = some (0, 80) ∧
    (∀ t, t < 80 → (fun t => if t < 80 then (0 : Nat) else 1) t = 0) ∧
    (∀ t, t < 400 → 80 ≤ t → (fun t => if t < 80 then (0 : Nat) else 1) t ≠ 0) := by
  decide

/-- C4 amended: on a trace whose press is held for exactly n sampling
periods and then released forever, read_switch_status never returns true
when n ≤ T = 80 (the run counter must strictly exceed T, so a press of at
most 80 periods is absorbed); when n ≥ 81 it returns true exactly once,
at time n + 80, and a further call at that time returns 0 until a fresh
press is observed. -/
theorem C4_debounce_threshold (pin : Nat → Nat) (n fuel : Nat)
    (hp : ∀ s, pin s = 0 ↔ s < n) (hfuel : n < fuel) :
    (n ≤ 80 → read_switch_status pin fuel 0 = some (0, n)) ∧
    (81 ≤ n → read_switch_status pin fuel 0 = some (1, n + 80) ∧
      ∀ f, read_switch_status pin (f + 1) (n + 80) = some (0, n + 80)) := by
  constructor
  · intro hn
    exact rssLoop_short_press pin n hp n fuel 0 0 (by omega) (by omega) hfuel
  · intro hn
    constructor
    · exact rssLoop_confirmed_press pin n hp hn 81 fuel 0 0 (by omega)
        (by omega) (by omega) (by omega)
    · intro f
      have hrel : pin (n + 80) ≠ 0 := by
        intro hc
        rw [hp (n + 80)] at hc
        omega
      exact rssLoop_exit pin f (n + 80) 0 0 hrel

/-- Witness for C4 amended: a press held 81 periods then released forever
is confirmed and reported once, at time 161. -/
theorem C4_debounce_threshold_witness :
    read_switch_status (fun t => if t < 81 then 0 else 1) 200 0 = some (1, 161) := by
  have h := (C4_debounce_threshold (fun t => if t < 81 then 0 else 1) 81 200
    (by intro s; by_cases hs : s < 81 <;> simp [hs]) (by omega)).2 (by omega)
  exact h.1

set_option maxRecDepth 8000 in
/-- Counterexample to C5 as stated: on a trace pressed at times 0..80 and
released afterwards except for a flicker back to pressed at time 100,
read_switch_status still accepts the release and returns true at time 161,
although the level was pressed at time 100, inside the final 80 periods
before acceptance: the release debounce does not sample the pin during
its 80-period wait, so the release is not required to be stable for T
consecutive sampled periods. -/
theorem C5_release_sampling_cex :
    read_switch_status
        (fun t => if t < 81 then 0 else if t = 100 then 0 else 1) 200 0 =
      some (1, 161) ∧
    (fun t => if t < 81 then (0 : Nat) else if t = 100 then 0 else 1) 100 = 0 ∧
    161 - 80 ≤ 100 ∧ 100 < 161 := by
  decide

/-- C5 amended: during release confirmation the sampler repeatedly waits
T = 80 periods without sampling the pin (resetting its tick counter at the
start of each wait) and then samples the pin once; a pressed sample loops
and waits another T periods, and the release is accepted at the first
post-wait sample that reads released.  Formally: if the single samples
taken at t2 + 80 * j read pressed for all 1 ≤ j < i and the sample at
t2 + 80 * i reads released, the release debounce entered at time t2
returns exactly at time t2 + 80 * i. -/
theorem C5_release_wait_and_resample (pin : Nat → Nat) (t2 i fuel : Nat)
    (hi : 1 ≤ i) (hfuel : i ≤ fuel)
    (hflick : ∀ j, 1 ≤ j → j < i → pin (t2 + 80 * j) = 0)
    (hrel : pin (t2 + 80 * i) ≠ 0) :
    releaseDebounce pin fuel t2 = some (t2 + 80 * i) :=
  releaseDebounce_first_released pin i t2 fuel hi hfuel hflick hrel

/-- Witness for C5 amended: the post-wait sample at time 80 reads pressed,
so the debounce loops once more and accepts at time 160. -/
theorem C5_release_wait_and_resample_witness :
    releaseDebounce (fun t => if t = 80 then 0 else 1) 2 0 = some 160 := by
  have h := C5_release_wait_and_resample (fun t => if t = 80 then 0 else 1)
    0 2 2 (by omega) (by omega)
    (by intro j hj1 hj2
        have hj : j = 1 := by omega
        subst hj
        norm_num)
    (by norm_num)
  simpa using h

/-- C8: whenever read_switch_status returns true, a complete confirmed
press-then-release gesture was observed after the call began: the pin read
pressed at 81 consecutive sampling instants from the start time (press
edge confirmed), the return happens strictly after that window, the pin
reads released at the return time (release edge confirmed), and an
immediately following call returns 0, so true cannot be returned again
until a fresh press-then-release is observed after the previous return. -/
theorem C8_true_requires_gesture (pin : Nat → Nat) (fuel t0 tEnd : Nat)
    (h : read_switch_status pin fuel t0 = some (1, tEnd)) :
    (∀ j, j ≤ 80 → pin (t0 + j) = 0) ∧ t0 + 80 < tEnd ∧ pin tEnd ≠ 0 ∧
    (∀ f, read_switch_status pin (f + 1) tEnd = some (0, tEnd)) := by
  unfold read_switch_status at h
  have hmain := rssLoop_confirm_needs_run pin fuel t0 0 tEnd (by omega) h
  have hend := rssLoop_sound_end pin fuel t0 0 0 1 tEnd h
  refine ⟨?_, ?_, hend.2, ?_⟩
  · intro j hj
    exact hmain.1 j (by omega)
  · have h2 := hmain.2
    omega
  · intro f
    exact rssLoop_exit pin f tEnd 0 0 hend.2

set_option maxRecDepth 8000 in
/-- Witness for C8 on the trace pressed at times 0..80 and released
afterwards: the sampler returns true at time 161, strictly after the
81-sample press window, and an immediate re-call returns 0. -/
theorem C8_true_requires_gesture_witness :
    0 + 80 < 161 ∧
    read_switch_status (fun t => if t < 81 then (0 : Nat) else 1) 1 161 =
      some (0, 161) := by
  obtain ⟨h1, h2, h3, h4⟩ := C8_true_requires_gesture
    (fun t => if t < 81 then (0 : Nat) else 1) 200 0 161 (by decide)
  exact ⟨h2, h4 0⟩

/-- Counterexample to C9 as stated: when cybsp_init fails (board bring-up
failure), main halts through the bare CY_ASSERT(0) of line 117 without
calling handle_error, so interrupts are not disabled and the error LED is
not turned on, contrary to the claim that every initialization failure
disables all interrupts and turns on the error LED. -/
theorem C9_cybsp_halt_cex :
    main_init ⟨false, true, true⟩ = ([InitAction.assert_halt], false) ∧
    InitAction.disable_irq ∉ (main_init ⟨false, true, true⟩).1 ∧
    InitAction.led_write LED_ON ∉ (main_init ⟨false, true, true⟩).1 := by
  decide

/-- C9 amended: every initialization failure prevents the main loop from
being reached and ends in the CY_ASSERT(0) halt; a failure of retarget-io
or MCWDT initialization (after board bring-up succeeded) goes through
handle_error, which disables all interrupts and turns on the error LED
before halting, while a board bring-up (cybsp_init) failure halts directly
via CY_ASSERT(0) without disabling interrupts or turning on the LED. -/
theorem C9_init_failure_halt (r : InitResults)
    (hfail : r.cybsp_ok = false ∨ r.retarget_io_ok = false ∨ r.mcwdt_ok = false) :
    (main_init r).2 = false ∧
    InitAction.assert_halt ∈ (main_init r).1 ∧
    (r.cybsp_ok = true → main_init r = (InitAction.enable_irq :: handle_error, false)) ∧
    (r.cybsp_ok = false → main_init r = ([InitAction.assert_halt], false)) := by
  obtain ⟨b1, b2, b3⟩ := r
  revert hfail
  cases b1 <;> cases b2 <;> cases b3 <;> decide

/-- Witness for C9 amended at a retarget-io failure: the handle_error path
is taken after the interrupt enable, and the main loop is not reached. -/
theorem C9_init_failure_halt_witness :
    main_init ⟨true, false, true⟩ = (InitAction.enable_irq :: handle_error, false) := by
  have h := C9_init_failure_halt ⟨true, false, true⟩ (Or.inr (Or.inl rfl))
  exact h.2.2.1 rfl

/-- C10: in every main-loop iteration in which read_switch_status returns
0, the two event-count variables are left unchanged, no counter register
is read and no output line is emitted: the iteration only advances the
time index. -/
theorem C10_no_event_frame (pin c0 c1 : Nat → Nat) (fuel : Nat)
    (s : LoopState) (t : Nat)
    (h : read_switch_status pin fuel s.time = some (0, t)) :
    main_loop_iter pin c0 c1 fuel s =
      some (⟨s.event1_cnt, s.event2_cnt, t⟩, []) := by
  unfold main_loop_iter
  rw [h]
  rfl

/-- Witness for C10: with the button released the sampler returns 0 at
once and the iteration leaves the event counts 3 and 5 unchanged and
emits no effect. -/
theorem C10_no_event_frame_witness :
    main_loop_iter (fun _ => 1) (fun _ => 0) (fun _ => 0) 1 ⟨3, 5, 0⟩ =
      some (⟨3, 5, 0⟩, []) :=
  C10_no_event_frame (fun _ => 1) (fun _ => 0) (fun _ => 0) 1 ⟨3, 5, 0⟩ 0
    (by decide)

end MCWDT
